import Mathlib

/-!
Verification of the asset resolver & downloader module
(`src/download/exchangeDownloader.ts`) of raml-toolkit-dotnet.

The TypeScript module is shallowly embedded: every exported function becomes a
Lean function.  Effects are made explicit:

* the file system is a `FS` value (a list of created directories and an
  association list from paths to byte contents);
* the warning logger is a list of emitted `Warning` values;
* both are bundled into a `World` that each effectful operation threads;
* `fetch` is an environment parameter mapping a URL (and bearer token, where
  the code sends one) to either a network error (`Except.error`) or an HTTP
  response value.  Mirroring node-fetch, a response with a non-OK status is a
  *successful* fetch (`Except.ok` with `ok := false`); only network-level
  failures reject.

JavaScript truthiness on the string fields the code tests (`restApi.id`,
`version`, `instance.environmentName`) is modelled by `strTruthy` on
`Option String`: `none` (undefined/null) and `some ""` are falsy.
The `await`/promise sequencing of the source is linearised: concurrent
downloads are interpreted in list order, which is one admissible schedule of
the single-threaded event loop; `Promise.all` rejection with the first error
is modelled accordingly.
-/

namespace ExchangeDownloader

def DEFAULT_DOWNLOAD_FOLDER : String := "download"

def ANYPOINT_BASE_URI : String := "https://anypoint.mulesoft.com/exchange/api/v2"

def ANYPOINT_BASE_URI_WITHOUT_VERSION : String := "https://anypoint.mulesoft.com/exchange"

/-- `FileInfo` from `exchangeTypes`: one downloadable file attached to an
asset, as copied field by field in `getFileByClassifier`. -/
structure FileInfo where
  classifier : String
  packaging : String
  externalLink : String
  createdDate : String
  md5 : String
  sha1 : String
  mainFile : String
deriving DecidableEq, Repr

/-- One raw `{key, value}` entry of the `categories` list of an asset JSON
response. -/
structure Category where
  key : String
  value : String
deriving DecidableEq, Repr

/-- The `Categories` JS object, modelled as an association list with
JS-object update semantics (`catInsert`). -/
abbrev Categories : Type := List (String × String)

/-- `RestApi` from `exchangeTypes`.  `id` and `version` are `Option String`
because the code tests them for JS truthiness; `fatRaml` is optional because
`getFileByClassifier` can produce `undefined`. -/
structure RestApi where
  id : Option String
  name : String
  description : String
  updatedDate : String
  groupId : String
  assetId : String
  version : Option String
  categories : Categories
  fatRaml : Option FileInfo
deriving DecidableEq, Repr

/-- One entry of the `instances` list of an asset JSON response, with the two
fields `getVersionByDeployment` destructures. -/
structure InstanceJson where
  environmentName : String
  version : String
deriving DecidableEq, Repr

/-- The parsed JSON body of an asset metadata response, with the fields the
module reads (spec section 6 shape). -/
structure AssetJson where
  id : Option String
  name : String
  description : String
  updatedDate : String
  groupId : String
  assetId : String
  version : Option String
  categories : List Category
  files : List FileInfo
  instances : List InstanceJson
deriving DecidableEq, Repr

/-- JS truthiness of a string-valued slot: `undefined`/`null` and `""` are
falsy. -/
def strTruthy : Option String → Bool
  | none => false
  | some s => s != ""

/-- One `ramlToolLogger.warn(message, hint)` call. -/
structure Warning where
  message : String
  hint : String
deriving DecidableEq, Repr

/-- The local file system: directories created so far and file contents
(bytes as `List Nat`). -/
structure FS where
  dirs : List String
  files : List (String × List Nat)
deriving DecidableEq, Repr

/-- The effect state threaded through the operations. -/
structure World where
  fs : FS
  warnings : List Warning
deriving DecidableEq, Repr

def emptyWorld : World := { fs := { dirs := [], files := [] }, warnings := [] }

/-- `fs-extra`'s `ensureDirSync`: idempotent directory creation. -/
def ensureDirSync (fs : FS) (dir : String) : FS :=
  if fs.dirs.contains dir then fs else { fs with dirs := fs.dirs ++ [dir] }

/-- `writeFileSync`: create the file or overwrite its previous contents. -/
def writeFileSync (fs : FS) (p : String) (bytes : List Nat) : FS :=
  if fs.files.any (fun e => e.fst == p) then
    { fs with files := fs.files.map (fun e => if e.fst == p then (p, bytes) else e) }
  else
    { fs with files := fs.files ++ [(p, bytes)] }

/-- Observe a file's contents (used only in theorems, not by the code). -/
def readFile (fs : FS) (p : String) : Option (List Nat) :=
  (fs.files.find? (fun e => e.fst == p)).map Prod.snd

/-- `path.join` for the one two-segment use in the module. -/
def pathJoin (a b : String) : String := a ++ "/" ++ b

/-- A node-fetch response for an archive download: `ok`/`status` are carried
but never inspected by `downloadRestApi`; `body` is what `arrayBuffer()`
yields. -/
structure ArchiveResponse where
  ok : Bool
  status : Nat
  body : List Nat
deriving DecidableEq, Repr

/-- A node-fetch response for a metadata request, with the fields `getAsset`
reads and the parsed `json()` body. -/
structure MetaResponse where
  ok : Bool
  status : Nat
  statusText : String
  body : AssetJson
deriving DecidableEq, Repr

/-- Network environment for plain archive GETs: URL to outcome.
`Except.error` is a network-level failure (fetch rejects). -/
abbrev ArchiveNet : Type := String → Except String ArchiveResponse

/-- Network environment for bearer-authenticated metadata GETs:
token and URL to outcome. -/
abbrev MetaNet : Type := String → String → Except String MetaResponse

/-- Network environment for the search endpoint: token and URL to the parsed
JSON array of asset objects. -/
abbrev SearchNet : Type := String → String → Except String (List AssetJson)

/-- How a `downloadRestApi` promise can reject: a TypeError from
dereferencing `restApi.fatRaml.externalLink` when `fatRaml` is undefined, or
a rejected fetch. -/
inductive DLError where
  | typeError : DLError
  | netError : String → DLError
deriving DecidableEq, Repr

/-- The warning emitted when a descriptor has no registry id
(lines 27-30 of the source). -/
def missingIdWarning (restApi : RestApi) : Warning :=
  { message := "Failed to download \x27" ++ restApi.name ++
      "\x27 RAML as Fat RAML download information is missing.",
    hint := "Please download it manually from " ++ ANYPOINT_BASE_URI_WITHOUT_VERSION ++
      "/" ++ restApi.groupId ++ "/" ++ restApi.assetId ++
      " and update the relevant details in apis/api-config.json" }

/-- `downloadRestApi` (lines 22-41): skip with a warning when the id is
falsy; otherwise ensure the directory, fetch the fat RAML link and write the
body to `<destinationFolder>/<assetId>.zip`.  The returned `World` carries
the side effects performed before any rejection. -/
def downloadRestApi (net : ArchiveNet) (restApi : RestApi)
    (destinationFolder : String) (w : World) :
    World × Except DLError (Option ArchiveResponse) :=
  if !strTruthy restApi.id then
    ({ w with warnings := w.warnings ++ [missingIdWarning restApi] }, Except.ok none)
  else
    let w1 : World := { w with fs := ensureDirSync w.fs destinationFolder }
    let zipFilePath := pathJoin destinationFolder (restApi.assetId ++ ".zip")
    match restApi.fatRaml with
    | none => (w1, Except.error DLError.typeError)
    | some fatRaml =>
      match net fatRaml.externalLink with
      | Except.error e => (w1, Except.error (DLError.netError e))
      | Except.ok response =>
        ({ w1 with fs := writeFileSync w1.fs zipFilePath response.body },
         Except.ok (some response))

/-- One step of the linearised `Promise.all` aggregation: run the next
download (its side effects always happen) and keep the first error. -/
def dlStep (net : ArchiveNet) (destinationFolder : String)
    (acc : World × Option DLError) (api : RestApi) : World × Option DLError :=
  let next := downloadRestApi net api destinationFolder acc.fst
  (next.fst,
   match acc.snd with
   | some e => some e
   | none =>
     match next.snd with
     | Except.error e => some e
     | Except.ok _ => none)

/-- `downloadRestApis` (lines 43-55): every per-asset download runs; the
aggregate resolves to the destination folder, or rejects with the first
error. -/
def downloadRestApis (net : ArchiveNet) (restApis : List RestApi)
    (destinationFolder : String) (w : World) : World × Except DLError String :=
  let run := restApis.foldl (dlStep net destinationFolder) (w, none)
  (run.fst,
   match run.snd with
   | some e => Except.error e
   | none => Except.ok destinationFolder)

/-- JS object insertion `cats[key] = value`: overwrite an existing key in
place, else append. -/
def catInsert (cats : Categories) (k v : String) : Categories :=
  if cats.any (fun p => p.fst == k) then
    cats.map (fun p => if p.fst == k then (k, v) else p)
  else
    cats ++ [(k, v)]

/-- `mapCategories` (lines 57-63). -/
def mapCategories (categories : List Category) : Categories :=
  categories.foldl (fun cats c => catInsert cats c.key c.value) ([] : List (String × String))

/-- Key lookup in the flattened category mapping. -/
def catLookup (cats : Categories) (k : String) : Option String :=
  ((cats : List (String × String)).find? (fun p => p.fst == k)).map Prod.snd

/-- `getFileByClassifier` (lines 65-81): scan all files, overwriting the
candidate on every classifier match, so the last match wins; `none` when no
file matches. -/
def getFileByClassifier (files : List FileInfo) (classifier : String) : Option FileInfo :=
  files.foldl
    (fun myFile file =>
      if file.classifier == classifier then
        some { classifier := file.classifier
               packaging := file.packaging
               externalLink := file.externalLink
               createdDate := file.createdDate
               md5 := file.md5
               sha1 := file.sha1
               mainFile := file.mainFile }
      else myFile)
    none

/-- `convertResponseToRestApi` (lines 83-95). -/
def convertResponseToRestApi (apiResponse : AssetJson) : RestApi :=
  { id := apiResponse.id
    name := apiResponse.name
    description := apiResponse.description
    updatedDate := apiResponse.updatedDate
    groupId := apiResponse.groupId
    assetId := apiResponse.assetId
    version := apiResponse.version
    categories := mapCategories apiResponse.categories
    fatRaml := getFileByClassifier apiResponse.files "fat-raml" }

/-- The metadata endpoint URL `${ANYPOINT_BASE_URI}/assets/${assetId}`. -/
def assetUrl (assetId : String) : String := ANYPOINT_BASE_URI ++ "/assets/" ++ assetId

/-- The warning emitted by `getAsset` on a non-OK status (lines 118-121). -/
def getAssetWarning (assetId : String) (res : MetaResponse) : Warning :=
  { message := "Failed to get information about " ++ assetId ++ " from exchange: " ++
      toString res.status ++ " - " ++ res.statusText,
    hint := "Please get it manually from " ++ assetUrl assetId ++
      " and update the relevant details in apis/api-config.json" }

/-- `getAsset` (lines 108-126): warn and return absent on a non-OK status,
else return the raw parsed JSON body. -/
def getAsset (mnet : MetaNet) (accessToken assetId : String) (w : World) :
    World × Except String (Option AssetJson) :=
  match mnet accessToken (assetUrl assetId) with
  | Except.error e => (w, Except.error e)
  | Except.ok res =>
    if !res.ok then
      ({ w with warnings := w.warnings ++ [getAssetWarning assetId res] }, Except.ok none)
    else
      (w, Except.ok (some res.body))

/-- The search endpoint URL `${ANYPOINT_BASE_URI}/assets?search=${searchString}`. -/
def searchUrl (searchString : String) : String :=
  ANYPOINT_BASE_URI ++ "/assets?search=" ++ searchString

/-- `searchExchange` (lines 135-152): push the conversion of every returned
asset object onto a fresh array. -/
def searchExchange (snet : SearchNet) (accessToken searchString : String) :
    Except String (List RestApi) :=
  match snet accessToken (searchUrl searchString) with
  | Except.error e => Except.error e
  | Except.ok restApis =>
    Except.ok (restApis.foldl (fun apis r => apis ++ [convertResponseToRestApi r]) [])

/-- `getVersionByDeployment` (lines 163-190).  The `deployment` regex is a
predicate on environment names.  The accumulator guard `!version` uses JS
truthiness: an accumulated empty string may still be overwritten. -/
def getVersionByDeployment (mnet : MetaNet) (accessToken : String) (restApi : RestApi)
    (deployment : String → Bool) (w : World) : World × Except String (Option String) :=
  let ga := getAsset mnet accessToken (restApi.groupId ++ "/" ++ restApi.assetId) w
  match ga.snd with
  | Except.error e => (ga.fst, Except.error e)
  | Except.ok none => (ga.fst, Except.ok none)
  | Except.ok (some asset) =>
    let version := asset.instances.foldl
      (fun version inst =>
        if inst.environmentName != "" && deployment inst.environmentName
            && !strTruthy version then
          some inst.version
        else version)
      (none : Option String)
    (ga.fst, Except.ok (if strTruthy version then version else asset.version))

/-- `getSpecificApi` (lines 201-214): a falsy version short-circuits to an
absent result with no request; otherwise fetch `groupId/assetId/version` and
map the body, absent if the lookup returned nothing. -/
def getSpecificApi (mnet : MetaNet) (accessToken groupId assetId : String)
    (version : Option String) (w : World) : World × Except String (Option RestApi) :=
  if strTruthy version then
    match version with
    | some v =>
      let ga := getAsset mnet accessToken (groupId ++ "/" ++ assetId ++ "/" ++ v) w
      (ga.fst, ga.snd.map (fun api => api.map convertResponseToRestApi))
    | none => (w, Except.ok none)
  else
    (w, Except.ok none)

/-! ### Helper lemmas about the file-system and download primitives -/

/-- Extract the rejection reason of a settled download, if any. -/
def errOf {α : Type} : Except DLError α → Option DLError
  | Except.error e => some e
  | Except.ok _ => none

theorem ensureDirSync_contains (fs : FS) (dir : String) :
    (ensureDirSync fs dir).dirs.contains dir = true := by
  unfold ensureDirSync
  split
  · simp_all
  · simp

theorem writeFileSync_dirs (fs : FS) (p : String) (bytes : List Nat) :
    (writeFileSync fs p bytes).dirs = fs.dirs := by
  unfold writeFileSync
  by_cases h : fs.files.any (fun e => e.fst == p) = true <;> simp [h]

theorem writeFileSync_files (fs : FS) (p : String) (bytes : List Nat) :
    (writeFileSync fs p bytes).files
      = if fs.files.any (fun e => e.fst == p) then
          fs.files.map (fun e => if e.fst == p then (p, bytes) else e)
        else fs.files ++ [(p, bytes)] := by
  unfold writeFileSync
  split <;> simp_all

theorem find?_update_eq (l : List (String × List Nat)) (p : String) (b : List Nat)
    (h : l.any (fun e => e.fst == p) = true) :
    (l.map (fun e => if e.fst == p then (p, b) else e)).find? (fun e => e.fst == p)
      = some (p, b) := by
  induction l with
  | nil => simp at h
  | cons e t ih =>
    rw [List.map_cons]
    by_cases he : (e.fst == p) = true
    · rw [if_pos he]
      simp [List.find?]
    · rw [if_neg he]
      rw [Bool.not_eq_true] at he
      rw [List.find?, he]
      apply ih
      have := h
      simp only [List.any_cons, Bool.or_eq_true] at this
      rcases this with hcontra | ht
      · rw [he] at hcontra
        exact absurd hcontra (by simp)
      · exact ht

theorem readFile_writeFileSync (fs : FS) (p : String) (bytes : List Nat) :
    readFile (writeFileSync fs p bytes) p = some bytes := by
  unfold readFile
  rw [writeFileSync_files]
  by_cases h : fs.files.any (fun e => e.fst == p) = true
  · rw [if_pos h, find?_update_eq fs.files p bytes h]
    rfl
  · have hnone : fs.files.find? (fun e => e.fst == p) = none := by
      rw [List.find?_eq_none]
      intro x hx hb
      exact h (List.any_eq_true.mpr ⟨x, hx, hb⟩)
    rw [if_neg h, List.find?_append, hnone]
    simp [List.find?]

theorem downloadRestApi_snd_congr (net : ArchiveNet) (api : RestApi)
    (dest : String) (w w' : World) :
    (downloadRestApi net api dest w).snd = (downloadRestApi net api dest w').snd := by
  cases h : strTruthy api.id
  · simp [downloadRestApi, h]
  · cases hf : api.fatRaml with
    | none => simp [downloadRestApi, h, hf]
    | some fr =>
      cases hn : net fr.externalLink <;> simp [downloadRestApi, h, hf, hn]

/-! ### C3: missing registry id skips with one warning -/

/-- Claim C3 (confirmed): for a descriptor whose registry id is falsy
(absent or empty), `downloadRestApi` leaves the file system untouched,
appends exactly one warning whose hint names the manual fallback URL, returns
normally with an absent result, and does not depend on the network
environment at all (no request is made). -/
theorem downloadRestApi_missing_id_skips (net net2 : ArchiveNet) (api : RestApi)
    (dest : String) (w : World) (h : strTruthy api.id = false) :
    downloadRestApi net api dest w
        = ({ w with warnings := w.warnings ++ [missingIdWarning api] }, Except.ok none)
      ∧ downloadRestApi net api dest w = downloadRestApi net2 api dest w
      ∧ (missingIdWarning api).hint
          = "Please download it manually from " ++ ANYPOINT_BASE_URI_WITHOUT_VERSION ++
              "/" ++ api.groupId ++ "/" ++ api.assetId ++
              " and update the relevant details in apis/api-config.json" := by
  refine ⟨?_, ?_, rfl⟩ <;> simp [downloadRestApi, h]

theorem downloadRestApi_missing_id_skips_witness :
    strTruthy (none : Option String) = false
      ∧ downloadRestApi (fun _ => Except.error "down")
          { id := none, name := "shop", description := "", updatedDate := "",
            groupId := "g1", assetId := "a1", version := none,
            categories := [], fatRaml := none } "download" emptyWorld
        = ({ emptyWorld with
              warnings := emptyWorld.warnings ++
                [missingIdWarning
                  { id := none, name := "shop", description := "", updatedDate := "",
                    groupId := "g1", assetId := "a1", version := none,
                    categories := [], fatRaml := none }] }, Except.ok none) :=
  ⟨by decide,
   (downloadRestApi_missing_id_skips (fun _ => Except.error "down")
      (fun _ => Except.error "up")
      { id := none, name := "shop", description := "", updatedDate := "",
        groupId := "g1", assetId := "a1", version := none,
        categories := [], fatRaml := none } "download" emptyWorld rfl).1⟩

/-! ### C4: a successful download writes the zip file -/

/-- Claim C4 (confirmed): for a descriptor with a truthy registry id and a
fat RAML entry whose external link fetch succeeds, `downloadRestApi` ensures
the destination directory exists, resolves with the response, and writes the
full response body to `<destinationFolder>/<assetId>.zip` — for every initial
world, so an existing file at that path is overwritten — and the stored byte
length equals the response body length. -/
theorem downloadRestApi_success_writes_zip (net : ArchiveNet) (api : RestApi)
    (dest : String) (w : World) (fr : FileInfo) (resp : ArchiveResponse)
    (hid : strTruthy api.id = true) (hfr : api.fatRaml = some fr)
    (hnet : net fr.externalLink = Except.ok resp) :
    (downloadRestApi net api dest w).snd = Except.ok (some resp)
      ∧ (downloadRestApi net api dest w).fst.fs.dirs.contains dest = true
      ∧ readFile (downloadRestApi net api dest w).fst.fs
          (pathJoin dest (api.assetId ++ ".zip")) = some resp.body
      ∧ ∃ bytes,
          readFile (downloadRestApi net api dest w).fst.fs
              (pathJoin dest (api.assetId ++ ".zip")) = some bytes
            ∧ bytes.length = resp.body.length := by
  have hw : downloadRestApi net api dest w
      = ({ fs := writeFileSync (ensureDirSync w.fs dest)
              (pathJoin dest (api.assetId ++ ".zip")) resp.body,
           warnings := w.warnings },
         Except.ok (some resp)) := by
    simp [downloadRestApi, hid, hfr, hnet]
  refine ⟨by rw [hw], ?_, ?_, ?_⟩
  · rw [hw]
    simpa [writeFileSync_dirs] using ensureDirSync_contains w.fs dest
  · rw [hw]
    exact readFile_writeFileSync _ _ _
  · refine ⟨resp.body, ?_, rfl⟩
    rw [hw]
    exact readFile_writeFileSync _ _ _

theorem downloadRestApi_success_writes_zip_witness :
    strTruthy (some "idA") = true
      ∧ ({ id := some "idA", name := "shop", description := "", updatedDate := "",
           groupId := "g1", assetId := "a1", version := some "1.0.0",
           categories := [],
           fatRaml := some { classifier := "fat-raml", packaging := "zip",
                             externalLink := "https://cdn/x.zip", createdDate := "",
                             md5 := "", sha1 := "", mainFile := "" } } : RestApi).fatRaml
          = some { classifier := "fat-raml", packaging := "zip",
                   externalLink := "https://cdn/x.zip", createdDate := "",
                   md5 := "", sha1 := "", mainFile := "" }
      ∧ readFile
          (downloadRestApi
            (fun u => if u == "https://cdn/x.zip" then
                Except.ok { ok := true, status := 200, body := [1, 2, 3] }
              else Except.error "dns")
            { id := some "idA", name := "shop", description := "", updatedDate := "",
              groupId := "g1", assetId := "a1", version := some "1.0.0",
              categories := [],
              fatRaml := some { classifier := "fat-raml", packaging := "zip",
                                externalLink := "https://cdn/x.zip", createdDate := "",
                                md5 := "", sha1 := "", mainFile := "" } }
            "download" emptyWorld).fst.fs
          (pathJoin "download" ("a1" ++ ".zip")) = some [1, 2, 3] :=
  ⟨by decide, rfl,
   (downloadRestApi_success_writes_zip
      (fun u => if u == "https://cdn/x.zip" then
          Except.ok { ok := true, status := 200, body := [1, 2, 3] }
        else Except.error "dns")
      { id := some "idA", name := "shop", description := "", updatedDate := "",
        groupId := "g1", assetId := "a1", version := some "1.0.0",
        categories := [],
        fatRaml := some { classifier := "fat-raml", packaging := "zip",
                          externalLink := "https://cdn/x.zip", createdDate := "",
                          md5 := "", sha1 := "", mainFile := "" } }
      "download" emptyWorld
      { classifier := "fat-raml", packaging := "zip",
        externalLink := "https://cdn/x.zip", createdDate := "",
        md5 := "", sha1 := "", mainFile := "" }
      { ok := true, status := 200, body := [1, 2, 3] }
      rfl rfl rfl).2.2.1⟩

/-! ### C9: a truthy id without a fatRaml entry faults -/

theorem getFileByClassifier_eq_none_of_no_match (files : List FileInfo) (c : String)
    (h : ∀ f ∈ files, ¬ f.classifier = c) :
    getFileByClassifier files c = none := by
  unfold getFileByClassifier
  induction files with
  | nil => rfl
  | cons f t ih =>
    rw [List.foldl_cons, if_neg]
    · exact ih (fun g hg => h g (List.mem_cons_of_mem f hg))
    · simp [h f (List.mem_cons_self f t)]

/-- Claim C9 (confirmed): `downloadRestApi` dereferences
`restApi.fatRaml.externalLink` without a guard, so a descriptor with a truthy
registry id but no fat RAML entry makes the download reject with a TypeError
instead of skipping or warning; and `getFileByClassifier` (hence
`convertResponseToRestApi`, used by `searchExchange`/`getSpecificApi`)
produces exactly such a descriptor whenever no attached file carries the
`"fat-raml"` classifier. -/
theorem downloadRestApi_faults_without_fatRaml (net : ArchiveNet) (api : RestApi)
    (dest : String) (w : World) (files : List FileInfo) (r : AssetJson)
    (hid : strTruthy api.id = true) (hfr : api.fatRaml = none) :
    (downloadRestApi net api dest w).snd = Except.error DLError.typeError
      ∧ ((∀ f ∈ files, ¬ f.classifier = "fat-raml") →
          getFileByClassifier files "fat-raml" = none)
      ∧ ((∀ f ∈ r.files, ¬ f.classifier = "fat-raml") →
          (convertResponseToRestApi r).fatRaml = none) := by
  refine ⟨?_, getFileByClassifier_eq_none_of_no_match files "fat-raml", ?_⟩
  · simp [downloadRestApi, hid, hfr]
  · intro hr
    exact getFileByClassifier_eq_none_of_no_match r.files "fat-raml" hr

theorem downloadRestApi_faults_without_fatRaml_witness :
    strTruthy (some "idA") = true
      ∧ (downloadRestApi (fun _ => Except.ok { ok := true, status := 200, body := [] })
          { id := some "idA", name := "shop", description := "", updatedDate := "",
            groupId := "g1", assetId := "a1", version := none,
            categories := [], fatRaml := none } "download" emptyWorld).snd
        = Except.error DLError.typeError :=
  ⟨by decide,
   (downloadRestApi_faults_without_fatRaml
      (fun _ => Except.ok { ok := true, status := 200, body := [] })
      { id := some "idA", name := "shop", description := "", updatedDate := "",
        groupId := "g1", assetId := "a1", version := none,
        categories := [], fatRaml := none } "download" emptyWorld
      [] { id := none, name := "", description := "", updatedDate := "",
           groupId := "", assetId := "", version := none,
           categories := [], files := [], instances := [] }
      rfl rfl).1⟩

/-! ### C1: multi-asset download aggregation -/

theorem foldl_dlStep_fst (net : ArchiveNet) (dest : String) (l : List RestApi) :
    ∀ (w : World) (o : Option DLError),
      (l.foldl (dlStep net dest) (w, o)).fst
        = l.foldl (fun wa api => (downloadRestApi net api dest wa).fst) w := by
  induction l with
  | nil => intro w o; rfl
  | cons api rest ih =>
    intro w o
    rw [List.foldl_cons, List.foldl_cons]
    have hstep : (dlStep net dest (w, o) api).fst = (downloadRestApi net api dest w).fst := rfl
    have hsnd : ∃ o2, dlStep net dest (w, o) api = ((downloadRestApi net api dest w).fst, o2) :=
      ⟨(dlStep net dest (w, o) api).snd, by rw [← hstep]⟩
    obtain ⟨o2, ho2⟩ := hsnd
    rw [ho2, ih]

theorem foldl_dlStep_snd_some (net : ArchiveNet) (dest : String) (l : List RestApi) :
    ∀ (w : World) (e : DLError),
      (l.foldl (dlStep net dest) (w, some e)).snd = some e := by
  induction l with
  | nil => intro w e; rfl
  | cons api rest ih =>
    intro w e
    rw [List.foldl_cons]
    have hstep : dlStep net dest (w, some e) api = ((downloadRestApi net api dest w).fst, some e) := rfl
    rw [hstep]
    exact ih _ e

theorem foldl_dlStep_snd_none (net : ArchiveNet) (dest : String) (l : List RestApi) :
    ∀ w : World,
      (l.foldl (dlStep net dest) (w, none)).snd
        = l.findSome? (fun api => errOf (downloadRestApi net api dest w).snd) := by
  induction l with
  | nil => intro w; rfl
  | cons api rest ih =>
    intro w
    rw [List.foldl_cons, List.findSome?_cons]
    have hstep : dlStep net dest (w, none) api
        = ((downloadRestApi net api dest w).fst, errOf (downloadRestApi net api dest w).snd) := by
      cases h : (downloadRestApi net api dest w).snd with
      | error e => simp [dlStep, errOf, h]
      | ok r => simp [dlStep, errOf, h]
    rw [hstep]
    cases he : errOf (downloadRestApi net api dest w).snd with
    | some e => exact foldl_dlStep_snd_some net dest rest _ e
    | none =>
      rw [ih]
      have hfun : (fun a => errOf (downloadRestApi net a dest (downloadRestApi net api dest w).fst).snd)
          = (fun a => errOf (downloadRestApi net a dest w).snd) := by
        funext a
        rw [downloadRestApi_snd_congr net a dest (downloadRestApi net api dest w).fst w]
      rw [hfun]

/-- Claim C1 (corrected): `downloadRestApis` runs every single-asset download
(under the linearised schedule), so side effects of all of them — including
files already written — persist whether or not some download fails; the
aggregate resolves to the destination folder exactly when no download
rejects, and otherwise rejects with the first rejection.  The correction: a
non-OK HTTP status on an archive download does *not* reject (node-fetch only
rejects on network failure, and `downloadRestApi` never reads `response.ok`),
so the body of a non-OK response is written and the aggregate still resolves
— see the counterexample. -/
theorem downloadRestApis_runs_all_and_fails_first (net : ArchiveNet)
    (restApis : List RestApi) (dest : String) (w : World) :
    (downloadRestApis net restApis dest w).fst
        = restApis.foldl (fun wa api => (downloadRestApi net api dest wa).fst) w
      ∧ (downloadRestApis net restApis dest w).snd
          = (match restApis.findSome? (fun api => errOf (downloadRestApi net api dest w).snd) with
             | some e => Except.error e
             | none => Except.ok dest) := by
  constructor
  · unfold downloadRestApis
    exact foldl_dlStep_fst net dest restApis w none
  · show (match (restApis.foldl (dlStep net dest) (w, none)).snd with
          | some e => Except.error e
          | none => Except.ok dest) = _
    rw [foldl_dlStep_snd_none net dest restApis w]

/-- Claim C1 counterexample: one descriptor whose archive fetch yields a 404
response (a successful fetch with `ok = false`).  The claim says the
aggregate rejects; in fact it resolves to the destination folder and the 404
body is written to the zip file. -/
theorem downloadRestApis_non_ok_status_resolves :
    (fun _ => Except.ok { ok := false, status := 404, body := [7, 7] } : ArchiveNet)
        "https://cdn/x.zip"
      = Except.ok { ok := false, status := 404, body := [7, 7] }
      ∧ (downloadRestApis (fun _ => Except.ok { ok := false, status := 404, body := [7, 7] })
          [{ id := some "idA", name := "shop", description := "", updatedDate := "",
             groupId := "g1", assetId := "a1", version := some "1.0.0",
             categories := [],
             fatRaml := some { classifier := "fat-raml", packaging := "zip",
                               externalLink := "https://cdn/x.zip", createdDate := "",
                               md5 := "", sha1 := "", mainFile := "" } }]
          "download" emptyWorld).snd = Except.ok "download"
      ∧ readFile
          (downloadRestApis (fun _ => Except.ok { ok := false, status := 404, body := [7, 7] })
            [{ id := some "idA", name := "shop", description := "", updatedDate := "",
               groupId := "g1", assetId := "a1", version := some "1.0.0",
               categories := [],
               fatRaml := some { classifier := "fat-raml", packaging := "zip",
                                 externalLink := "https://cdn/x.zip", createdDate := "",
                                 md5 := "", sha1 := "", mainFile := "" } }]
            "download" emptyWorld).fst.fs "download/a1.zip"
        = some [7, 7] :=
  ⟨rfl, rfl, rfl⟩

/-! ### C2: classifier selection is last-wins -/

theorem getFileByClassifier_eq_getLast? (files : List FileInfo) (c : String) :
    getFileByClassifier files c
      = (files.filter (fun f => f.classifier == c)).getLast? := by
  induction files using List.reverseRecOn with
  | nil => rfl
  | append_singleton l f ih =>
    unfold getFileByClassifier
    rw [List.foldl_append, List.foldl_cons, List.foldl_nil, List.filter_append]
    by_cases hc : (f.classifier == c) = true
    · rw [if_pos hc]
      have hfil : List.filter (fun f => f.classifier == c) [f] = [f] := by
        simp [List.filter_cons, hc]
      rw [hfil, List.getLast?_concat]
    · rw [if_neg hc]
      have hfil : List.filter (fun f => f.classifier == c) [f] = [] := by
        simp only [List.filter_cons, List.filter_nil]
        simp only [beq_iff_eq] at hc
        simp [hc]
      rw [hfil, List.append_nil]
      exact ih

/-- Claim C2 (confirmed): when more than one attached file carries the
requested classifier, `getFileByClassifier` returns the *last* matching
entry of the input list — the scan keeps overwriting its candidate on every
match, so the tie-break is last-wins, not first-wins. -/
theorem getFileByClassifier_last_match_wins (files : List FileInfo) (c : String)
    (_h : 1 < (files.filter (fun f => f.classifier == c)).length) :
    getFileByClassifier files c
      = (files.filter (fun f => f.classifier == c)).getLast? :=
  getFileByClassifier_eq_getLast? files c

def fatA : FileInfo :=
  { classifier := "fat-raml", packaging := "zip", externalLink := "https://cdn/a.zip",
    createdDate := "2020-01-01", md5 := "m1", sha1 := "s1", mainFile := "a.raml" }

def fatB : FileInfo :=
  { classifier := "fat-raml", packaging := "zip", externalLink := "https://cdn/b.zip",
    createdDate := "2020-01-02", md5 := "m2", sha1 := "s2", mainFile := "b.raml" }

theorem getFileByClassifier_last_match_wins_witness :
    1 < (([fatA, fatB]).filter (fun f => f.classifier == "fat-raml")).length
      ∧ getFileByClassifier [fatA, fatB] "fat-raml"
          = ([fatA, fatB].filter (fun f => f.classifier == "fat-raml")).getLast? :=
  ⟨by decide,
   getFileByClassifier_last_match_wins [fatA, fatB] "fat-raml" (by decide)⟩

/-! ### C6: searchExchange maps the response in order -/

theorem find?_keyUpdate_ne (t : List (String × String)) (k v k' : String)
    (hkk : k' ≠ k) :
    (t.map (fun p => if p.fst == k then (k, v) else p)).find? (fun p => p.fst == k')
      = t.find? (fun p => p.fst == k') := by
  induction t with
  | nil => rfl
  | cons q r ih =>
    rw [List.map_cons]
    by_cases hq : q.fst = k
    · have h1 : (q.fst == k) = true := by simpa using hq
      have h2 : (q.fst == k') = false := by
        simp only [beq_eq_false_iff_ne]
        rw [hq]
        exact fun heq => hkk heq.symm
      have h3 : ((k, v).fst == k') = false := by
        simp only [beq_eq_false_iff_ne]
        exact fun heq => hkk heq.symm
      rw [if_pos h1, List.find?, h3, List.find?, h2]
      exact ih
    · have h1 : (q.fst == k) = false := by simpa using hq
      rw [if_neg (by simp [h1])]
      by_cases hq' : (q.fst == k') = true
      · rw [List.find?, hq', List.find?, hq']
      · have h2 : (q.fst == k') = false := by simpa using hq'
        rw [List.find?, h2, List.find?, h2]
        exact ih

theorem find?_keyUpdate_eq (t : List (String × String)) (k v : String)
    (h : t.any (fun p => p.fst == k) = true) :
    (t.map (fun p => if p.fst == k then (k, v) else p)).find? (fun p => p.fst == k)
      = some (k, v) := by
  induction t with
  | nil => simp at h
  | cons q r ih =>
    rw [List.map_cons]
    by_cases hq : (q.fst == k) = true
    · rw [if_pos hq, List.find?]
      simp
    · have hq2 : (q.fst == k) = false := by simpa using hq
      rw [if_neg hq, List.find?, hq2]
      apply ih
      simp only [List.any_cons, Bool.or_eq_true] at h
      rcases h with hcontra | ht
      · rw [hq2] at hcontra
        exact absurd hcontra (by simp)
      · exact ht

theorem catLookup_catInsert (m : Categories) (k v k' : String) :
    catLookup (catInsert m k v) k' = if k' = k then some v else catLookup m k' := by
  unfold catLookup catInsert
  by_cases hany : m.any (fun p => p.fst == k) = true
  · rw [if_pos hany]
    by_cases hk : k' = k
    · rw [if_pos hk, hk, find?_keyUpdate_eq m k v hany]
      rfl
    · rw [if_neg hk, find?_keyUpdate_ne m k v k' hk]
  · rw [if_neg hany]
    have hnone : m.find? (fun p => p.fst == k) = none := by
      rw [List.find?_eq_none]
      intro x hx hb
      exact hany (List.any_eq_true.mpr ⟨x, hx, hb⟩)
    by_cases hk : k' = k
    · subst hk
      rw [if_pos rfl, List.find?_append, hnone]
      simp [List.find?]
    · rw [if_neg hk, List.find?_append]
      have hsing : List.find? (fun p => p.fst == k') [(k, v)] = none := by
        have : ((k, v).fst == k') = false := by
          simp only [beq_eq_false_iff_ne]
          exact fun heq => hk heq.symm
        simp [List.find?, this]
      rw [hsing, Option.or_none]

theorem catLookup_mapCategories (cs : List Category) (k : String) :
    catLookup (mapCategories cs) k
      = ((cs.filter (fun c => c.key == k)).getLast?).map Category.value := by
  induction cs using List.reverseRecOn with
  | nil => rfl
  | append_singleton l c ih =>
    unfold mapCategories
    rw [List.foldl_append, List.foldl_cons, List.foldl_nil, List.filter_append]
    rw [catLookup_catInsert]
    by_cases hk : k = c.key
    · rw [if_pos hk]
      have hfil : List.filter (fun c => c.key == k) [c] = [c] := by
        simp [List.filter_cons, hk]
      rw [hfil, List.getLast?_concat]
      rfl
    · rw [if_neg hk]
      have hfil : List.filter (fun c => c.key == k) [c] = [] := by
        simp only [List.filter_cons, List.filter_nil]
        have : (c.key == k) = false := by
          simp only [beq_eq_false_iff_ne]
          exact fun heq => hk heq.symm
        simp [this]
      rw [hfil, List.append_nil]
      exact ih

theorem foldl_push_eq_map (l : List AssetJson) :
    ∀ acc : List RestApi,
      l.foldl (fun apis r => apis ++ [convertResponseToRestApi r]) acc
        = acc ++ l.map convertResponseToRestApi := by
  induction l with
  | nil => intro acc; simp
  | cons r t ih =>
    intro acc
    rw [List.foldl_cons, List.map_cons, ih]
    simp

/-- Claim C6 (confirmed): on a successful search response, `searchExchange`
returns one `RestApi` per returned JSON object, in response order (the
result is exactly the elementwise conversion, hence same length and order);
each descriptor's categories are the response's `{key, value}` pairs
flattened into a key-to-value mapping (lookup returns the value of the last
pair with that key), and its `fatRaml` is the file selected by classifier
`"fat-raml"`. -/
theorem searchExchange_preserves_order (snet : SearchNet) (tok q : String)
    (l : List AssetJson) (h : snet tok (searchUrl q) = Except.ok l) :
    searchExchange snet tok q = Except.ok (l.map convertResponseToRestApi)
      ∧ (l.map convertResponseToRestApi).length = l.length
      ∧ ∀ r ∈ l,
          (convertResponseToRestApi r).fatRaml = getFileByClassifier r.files "fat-raml"
          ∧ (convertResponseToRestApi r).categories = mapCategories r.categories
          ∧ ∀ k, catLookup ((convertResponseToRestApi r).categories) k
              = ((r.categories.filter (fun cat => cat.key == k)).getLast?).map
                  Category.value := by
  refine ⟨?_, List.length_map _ _, ?_⟩
  · unfold searchExchange
    rw [h]
    show Except.ok (l.foldl (fun apis r => apis ++ [convertResponseToRestApi r]) []) = _
    rw [foldl_push_eq_map l []]
    rfl
  · intro r _
    exact ⟨rfl, rfl, fun k => catLookup_mapCategories r.categories k⟩

def assetOne : AssetJson :=
  { id := some "g1/a1/1.0.0", name := "Shop API", description := "d1",
    updatedDate := "2020-01-01", groupId := "g1", assetId := "a1",
    version := some "1.0.0",
    categories := [{ key := "domain", value := "commerce" }],
    files := [fatA], instances := [] }

def assetTwo : AssetJson :=
  { id := some "g1/a2/2.0.0", name := "Cart API", description := "d2",
    updatedDate := "2020-01-02", groupId := "g1", assetId := "a2",
    version := some "2.0.0",
    categories := [{ key := "domain", value := "checkout" }],
    files := [fatB], instances := [] }

theorem searchExchange_preserves_order_witness :
    (fun _ _ => Except.ok [assetOne, assetTwo] : SearchNet) "tok" (searchUrl "shop")
        = Except.ok [assetOne, assetTwo]
      ∧ searchExchange (fun _ _ => Except.ok [assetOne, assetTwo]) "tok" "shop"
          = Except.ok ([assetOne, assetTwo].map convertResponseToRestApi) :=
  ⟨rfl,
   (searchExchange_preserves_order (fun _ _ => Except.ok [assetOne, assetTwo])
      "tok" "shop" [assetOne, assetTwo] rfl).1⟩

/-! ### C5 / C10: deployment-version resolution -/

/-- The instance callback of `getVersionByDeployment` (lines 177-185),
factored out for the lemmas below; definitionally equal to the inline
lambda. -/
def versionScanStep (deployment : String → Bool) (version : Option String)
    (inst : InstanceJson) : Option String :=
  if inst.environmentName != "" && deployment inst.environmentName
      && !strTruthy version then
    some inst.version
  else version

/-- An instance that matches the deployment pattern *and* carries a
non-empty version — the ones the scan can actually commit to. -/
def instanceTruthyMatch (deployment : String → Bool) (inst : InstanceJson) : Bool :=
  inst.environmentName != "" && deployment inst.environmentName && inst.version != ""

theorem scan_keeps_truthy (dep : String → Bool) (l : List InstanceJson) :
    ∀ acc, strTruthy acc = true → l.foldl (versionScanStep dep) acc = acc := by
  induction l with
  | nil => intro acc _; rfl
  | cons j r ih =>
    intro acc hacc
    rw [List.foldl_cons]
    have hstep : versionScanStep dep acc j = acc := by
      simp [versionScanStep, hacc]
    rw [hstep]
    exact ih acc hacc

theorem scan_some (dep : String → Bool) (l : List InstanceJson) :
    ∀ acc i, strTruthy acc = false →
      l.find? (instanceTruthyMatch dep) = some i →
      l.foldl (versionScanStep dep) acc = some i.version := by
  induction l with
  | nil => intro acc i _ hfind; simp at hfind
  | cons j r ih =>
    intro acc i hacc hfind
    rw [List.foldl_cons]
    cases h1 : (j.environmentName != "") with
    | false =>
      have hjf : instanceTruthyMatch dep j = false := by simp [instanceTruthyMatch, h1]
      have hstep : versionScanStep dep acc j = acc := by simp [versionScanStep, h1]
      rw [List.find?, hjf] at hfind
      rw [hstep]
      exact ih acc i hacc hfind
    | true =>
      cases h2 : dep j.environmentName with
      | false =>
        have hjf : instanceTruthyMatch dep j = false := by
          simp [instanceTruthyMatch, h1, h2]
        have hstep : versionScanStep dep acc j = acc := by
          simp [versionScanStep, h1, h2]
        rw [List.find?, hjf] at hfind
        rw [hstep]
        exact ih acc i hacc hfind
      | true =>
        have hstep : versionScanStep dep acc j = some j.version := by
          simp [versionScanStep, h1, h2, hacc]
        rw [hstep]
        cases h3 : (j.version != "") with
        | true =>
          have hjt : instanceTruthyMatch dep j = true := by
            simp [instanceTruthyMatch, h1, h2, h3]
          rw [List.find?, hjt] at hfind
          have hij : j = i := by simpa using hfind
          subst hij
          exact scan_keeps_truthy dep r (some j.version) (by simpa [strTruthy] using h3)
        | false =>
          have hjf : instanceTruthyMatch dep j = false := by
            simp [instanceTruthyMatch, h3]
          rw [List.find?, hjf] at hfind
          apply ih _ i _ hfind
          simpa [strTruthy] using h3

theorem scan_none (dep : String → Bool) (l : List InstanceJson) :
    ∀ acc, strTruthy acc = false →
      l.find? (instanceTruthyMatch dep) = none →
      strTruthy (l.foldl (versionScanStep dep) acc) = false := by
  induction l with
  | nil => intro acc hacc _; exact hacc
  | cons j r ih =>
    intro acc hacc hfind
    rw [List.foldl_cons]
    cases h1 : (j.environmentName != "") with
    | false =>
      have hjf : instanceTruthyMatch dep j = false := by simp [instanceTruthyMatch, h1]
      have hstep : versionScanStep dep acc j = acc := by simp [versionScanStep, h1]
      rw [List.find?, hjf] at hfind
      rw [hstep]
      exact ih acc hacc hfind
    | true =>
      cases h2 : dep j.environmentName with
      | false =>
        have hjf : instanceTruthyMatch dep j = false := by
          simp [instanceTruthyMatch, h1, h2]
        have hstep : versionScanStep dep acc j = acc := by
          simp [versionScanStep, h1, h2]
        rw [List.find?, hjf] at hfind
        rw [hstep]
        exact ih acc hacc hfind
      | true =>
        cases h3 : (j.version != "") with
        | true =>
          have hjt : instanceTruthyMatch dep j = true := by
            simp [instanceTruthyMatch, h1, h2, h3]
          rw [List.find?, hjt] at hfind
          exact absurd hfind (by simp)
        | false =>
          have hjf : instanceTruthyMatch dep j = false := by
            simp [instanceTruthyMatch, h3]
          rw [List.find?, hjf] at hfind
          have hstep : versionScanStep dep acc j = some j.version := by
            simp [versionScanStep, h1, h2, hacc]
          rw [hstep]
          exact ih (some j.version) (by simpa [strTruthy] using h3) hfind

theorem scan_result (dep : String → Bool) (instances : List InstanceJson)
    (fallback : Option String) :
    (if strTruthy (instances.foldl (versionScanStep dep) none) then
        instances.foldl (versionScanStep dep) none
      else fallback)
      = (match instances.find? (instanceTruthyMatch dep) with
         | some i => some i.version
         | none => fallback) := by
  cases hf : instances.find? (instanceTruthyMatch dep) with
  | some i =>
    have hfold := scan_some dep instances none i rfl hf
    rw [hfold]
    have hv : (i.version != "") = true := by
      have hp := List.find?_some hf
      simp only [instanceTruthyMatch, Bool.and_eq_true] at hp
      simpa using hp.2
    simp [strTruthy, hv]
  | none =>
    have hfold := scan_none dep instances none rfl hf
    rw [if_neg (by simp [hfold])]

theorem getVersionByDeployment_ok_characterization (mnet : MetaNet) (tok : String)
    (api : RestApi) (dep : String → Bool) (w : World) (res : MetaResponse)
    (h : mnet tok (assetUrl (api.groupId ++ "/" ++ api.assetId)) = Except.ok res)
    (hok : res.ok = true) :
    (getVersionByDeployment mnet tok api dep w).snd
      = Except.ok (match res.body.instances.find? (instanceTruthyMatch dep) with
                   | some i => some i.version
                   | none => res.body.version) := by
  have hga : getAsset mnet tok (api.groupId ++ "/" ++ api.assetId) w
      = (w, Except.ok (some res.body)) := by
    simp [getAsset, h, hok]
  simp only [getVersionByDeployment, hga]
  exact congrArg Except.ok (scan_result dep res.body.instances res.body.version)

/-- Claim C5 (corrected): when metadata is found, `getVersionByDeployment`
returns the version of the first instance whose environment name is
non-empty, matches the pattern, *and whose version is itself non-empty*; if
no such instance exists it falls back to the asset's top-level version
field; when the lookup yields no metadata it returns an absent result
without error.  The correction: the claim's plain first-match rule fails
when the first matching instance's version is empty — the accumulator guard
`!version` treats an accumulated empty string as unset, so a later match
overwrites it (see the counterexample). -/
theorem getVersionByDeployment_first_truthy_match (mnet : MetaNet) (tok : String)
    (api : RestApi) (dep : String → Bool) (w : World) (res : MetaResponse)
    (h : mnet tok (assetUrl (api.groupId ++ "/" ++ api.assetId)) = Except.ok res) :
    (res.ok = false → (getVersionByDeployment mnet tok api dep w).snd = Except.ok none)
      ∧ (res.ok = true →
          (getVersionByDeployment mnet tok api dep w).snd
            = Except.ok (match res.body.instances.find? (instanceTruthyMatch dep) with
                         | some i => some i.version
                         | none => res.body.version)) := by
  constructor
  · intro hok
    simp [getVersionByDeployment, getAsset, h, hok]
  · intro hok
    exact getVersionByDeployment_ok_characterization mnet tok api dep w res h hok

/-- The asset used to refute the plain first-match rule: the first matching
instance has an empty version, a later matching instance has `"2.0.0"`. -/
def deployAsset : AssetJson :=
  { id := some "g1/a1", name := "Shop API", description := "", updatedDate := "",
    groupId := "g1", assetId := "a1", version := some "9.9.9",
    categories := [], files := [],
    instances := [{ environmentName := "prod-1", version := "" },
                  { environmentName := "prod-2", version := "2.0.0" }] }

def deployNet : MetaNet :=
  fun _ _ => Except.ok { ok := true, status := 200, statusText := "OK", body := deployAsset }

def apiG1A1 : RestApi :=
  { id := some "g1/a1", name := "Shop API", description := "", updatedDate := "",
    groupId := "g1", assetId := "a1", version := none,
    categories := [], fatRaml := none }

/-- Claim C5 counterexample: with instances
`[{prod-1, ""}, {prod-2, "2.0.0"}]` and a pattern matching both environment names, the
first matching instance's version is `""`, but the call returns `"2.0.0"` —
so the claimed first-match rule does not hold as stated. -/
theorem getVersionByDeployment_first_match_refuted :
    (deployAsset.instances.find?
        (fun i => i.environmentName != "" && (fun s => s == "prod-1" || s == "prod-2") i.environmentName)).map
        InstanceJson.version = some ""
      ∧ (getVersionByDeployment deployNet "tok" apiG1A1
            (fun s => s == "prod-1" || s == "prod-2") emptyWorld).snd = Except.ok (some "2.0.0")
      ∧ (some "2.0.0" : Option String) ≠ some "" :=
  ⟨rfl, rfl, by decide⟩

theorem getVersionByDeployment_first_truthy_match_witness :
    deployNet "tok" (assetUrl (apiG1A1.groupId ++ "/" ++ apiG1A1.assetId))
        = Except.ok { ok := true, status := 200, statusText := "OK", body := deployAsset }
      ∧ (getVersionByDeployment deployNet "tok" apiG1A1
            (fun s => s == "prod-1" || s == "prod-2") emptyWorld).snd
          = Except.ok (match deployAsset.instances.find?
                (instanceTruthyMatch (fun s => s == "prod-1" || s == "prod-2")) with
              | some i => some i.version
              | none => deployAsset.version) :=
  ⟨rfl,
   (getVersionByDeployment_first_truthy_match deployNet "tok" apiG1A1
      (fun s => s == "prod-1" || s == "prod-2") emptyWorld
      { ok := true, status := 200, statusText := "OK", body := deployAsset } rfl).2 rfl⟩

/-- Claim C10 (corrected): an empty version string can only be returned when
it is the asset's own top-level version field — the scan never commits an
empty instance version (a matching instance with empty version is skipped in
favour of later matches), and the final fallback replaces any falsy
accumulated value.  The correction: the claim's headline "never returns an
empty (falsy) version string" fails when the asset's top-level `version`
field is itself the empty string, which the fallback returns verbatim (see
the counterexample). -/
theorem getVersionByDeployment_empty_only_from_asset_version (mnet : MetaNet)
    (tok : String) (api : RestApi) (dep : String → Bool) (w : World) (res : MetaResponse)
    (h : mnet tok (assetUrl (api.groupId ++ "/" ++ api.assetId)) = Except.ok res)
    (hok : res.ok = true)
    (hres : (getVersionByDeployment mnet tok api dep w).snd = Except.ok (some "")) :
    res.body.version = some "" := by
  have hchar := getVersionByDeployment_ok_characterization mnet tok api dep w res h hok
  rw [hchar] at hres
  cases hf : res.body.instances.find? (instanceTruthyMatch dep) with
  | some i =>
    rw [hf] at hres
    have hv := List.find?_some hf
    have hiv : (i.version != "") = true := by
      cases hq : (i.version != "")
      · rw [instanceTruthyMatch, hq] at hv
        simp at hv
      · rfl
    simp only [] at hres
    have hieq : i.version = "" := by simpa using hres
    rw [hieq] at hiv
    simp at hiv
  | none =>
    rw [hf] at hres
    simpa using hres

/-- The asset whose top-level version field is the empty string. -/
def emptyVersionAsset : AssetJson :=
  { id := some "g1/a1", name := "Shop API", description := "", updatedDate := "",
    groupId := "g1", assetId := "a1", version := some "",
    categories := [], files := [], instances := [] }

def emptyVersionNet : MetaNet :=
  fun _ _ =>
    Except.ok { ok := true, status := 200, statusText := "OK", body := emptyVersionAsset }

/-- Claim C10 counterexample: an asset with no instances and top-level
version `""` makes `getVersionByDeployment` return the empty string. -/
theorem getVersionByDeployment_returns_empty_string :
    (getVersionByDeployment emptyVersionNet "tok" apiG1A1
        (fun s => s == "prod-1" || s == "prod-2") emptyWorld).snd = Except.ok (some "") := rfl

theorem getVersionByDeployment_empty_only_from_asset_version_witness :
    emptyVersionNet "tok" (assetUrl (apiG1A1.groupId ++ "/" ++ apiG1A1.assetId))
        = Except.ok { ok := true, status := 200, statusText := "OK",
                      body := emptyVersionAsset }
      ∧ emptyVersionAsset.version = some "" :=
  ⟨rfl,
   getVersionByDeployment_empty_only_from_asset_version emptyVersionNet "tok" apiG1A1
     (fun s => s == "prod-1" || s == "prod-2") emptyWorld
     { ok := true, status := 200, statusText := "OK", body := emptyVersionAsset }
     rfl rfl rfl⟩

/-! ### C7: getAsset status handling -/

/-- Claim C7 (confirmed): on a non-OK status `getAsset` appends one warning
whose hint names the manual-lookup URL and returns an absent result without
throwing; on an OK status it returns the raw parsed JSON body unmodified and
emits nothing. -/
theorem getAsset_warns_non_ok_returns_body_on_ok (mnet : MetaNet)
    (tok assetId : String) (w : World) (res : MetaResponse)
    (h : mnet tok (assetUrl assetId) = Except.ok res) :
    (res.ok = false →
        getAsset mnet tok assetId w
            = ({ w with warnings := w.warnings ++ [getAssetWarning assetId res] },
               Except.ok none)
          ∧ (getAssetWarning assetId res).hint
              = "Please get it manually from " ++ assetUrl assetId ++
                  " and update the relevant details in apis/api-config.json")
      ∧ (res.ok = true → getAsset mnet tok assetId w = (w, Except.ok (some res.body))) := by
  constructor
  · intro hok
    exact ⟨by simp [getAsset, h, hok], rfl⟩
  · intro hok
    simp [getAsset, h, hok]

def notFoundRes : MetaResponse :=
  { ok := false, status := 404, statusText := "Not Found", body := emptyVersionAsset }

def notFoundNet : MetaNet := fun _ _ => Except.ok notFoundRes

theorem getAsset_warns_non_ok_returns_body_on_ok_witness :
    notFoundRes.ok = false
      ∧ getAsset notFoundNet "tok" "g1/a1" emptyWorld
          = ({ emptyWorld with
                warnings := emptyWorld.warnings ++ [getAssetWarning "g1/a1" notFoundRes] },
             Except.ok none) :=
  ⟨rfl,
   ((getAsset_warns_non_ok_returns_body_on_ok notFoundNet "tok" "g1/a1" emptyWorld
      notFoundRes rfl).1 rfl).1⟩

/-! ### C8: getSpecificApi version gate -/

/-- Claim C8 (confirmed): a falsy (absent or empty) version makes
`getSpecificApi` return an absent result without consulting the network at
all; a non-empty version makes it fetch metadata for
`groupId/assetId/version` and return the mapped descriptor, or an absent
result when the lookup returned nothing. -/
theorem getSpecificApi_version_gate (mnet mnet2 : MetaNet) (tok g a : String)
    (w : World) :
    (∀ version, strTruthy version = false →
        getSpecificApi mnet tok g a version w = (w, Except.ok none)
          ∧ getSpecificApi mnet tok g a version w
              = getSpecificApi mnet2 tok g a version w)
      ∧ (∀ v res, v ≠ "" →
          mnet tok (assetUrl (g ++ "/" ++ a ++ "/" ++ v)) = Except.ok res →
          (res.ok = true →
            getSpecificApi mnet tok g a (some v) w
              = (w, Except.ok (some (convertResponseToRestApi res.body))))
            ∧ (res.ok = false →
              (getSpecificApi mnet tok g a (some v) w).snd = Except.ok none)) := by
  constructor
  · intro version hv
    constructor <;> simp [getSpecificApi, hv]
  · intro v res hv h
    have hs : strTruthy (some v) = true := by simpa [strTruthy] using hv
    constructor
    · intro hok
      simp [getSpecificApi, hs, getAsset, h, hok, Except.map]
    · intro hok
      simp [getSpecificApi, hs, getAsset, h, hok, Except.map]

theorem getSpecificApi_version_gate_witness :
    strTruthy (none : Option String) = false
      ∧ getSpecificApi notFoundNet "tok" "g1" "a1" none emptyWorld
          = (emptyWorld, Except.ok none) :=
  ⟨rfl,
   ((getSpecificApi_version_gate notFoundNet notFoundNet "tok" "g1" "a1"
      emptyWorld).1 none rfl).1⟩

end ExchangeDownloader
